import Mathlib

/-!
Shallow embedding of the Traycer_Mock planning extension:
the Generation Adapter (`GeminiService`), the Context Aggregator
(`CodebaseAnalyzer`) and the Workflow Engine (`PlannerProvider`).

External collaborators are made explicit parameters or state:
the reasoning backend's reply is an `Option` argument (none covers the
uninitialized backend as well as a call or parse failure, which the code
treats identically by falling back), the input boxes are `Option String`
arguments (none = cancelled), persistence (`workspaceState`) is an
`Option WorkflowState` field plus a log of every state written to it,
and the file-mutation collaborator's per-item outcome is a `Nat → Bool`
argument indexed by plan position.
-/

set_option maxRecDepth 10000

namespace Traycer

/-- Whether `p` is a prefix of `s`, on character lists. -/
def charStartsWith : List Char → List Char → Bool
  | _, [] => true
  | [], _ :: _ => false
  | a :: s, b :: p => a = b && charStartsWith s p

/-- Whether `p` occurs as a contiguous run of `s`, on character lists. -/
def charHasSub : List Char → List Char → Bool
  | [], p => p.isEmpty
  | a :: rest, p => charStartsWith (a :: rest) p || charHasSub rest p

/-- JavaScript `String.prototype.includes`: substring containment. -/
def jsIncludes (s sub : String) : Bool := charHasSub s.data sub.data

/-- JavaScript `String.prototype.toLowerCase` (character-wise lowering). -/
def jsToLower (s : String) : String := ⟨s.data.map Char.toLower⟩

/-- JavaScript `String.prototype.trim`: strip leading and trailing
whitespace. -/
def jsTrim (s : String) : String :=
  ⟨((s.data.dropWhile Char.isWhitespace).reverse.dropWhile Char.isWhitespace).reverse⟩

/-- Split a character list at every occurrence of `sep` (JavaScript
`split` with a one-character separator: adjacent separators and ends yield
empty pieces). -/
def charSplitOn (sep : Char) : List Char → List (List Char)
  | [] => [[]]
  | c :: rest =>
    if c = sep then [] :: charSplitOn sep rest
    else
      match charSplitOn sep rest with
      | [] => [[c]]
      | h :: t => (c :: h) :: t

/-- JavaScript `String.prototype.split` with a one-character separator. -/
def jsSplit (s : String) (sep : Char) : List String :=
  (charSplitOn sep s.data).map (fun l => ⟨l⟩)

/-! ## Data model (src/types.ts) -/

/-- Workflow phase, from the `WorkflowState.phase` union type. -/
inductive Phase
  | idle
  | clarification
  | planning
  | ready
deriving DecidableEq, Repr

/-- Structure `PlanItem` from types.ts.  The `action` union type is a string at the
JavaScript value level; validation of its three admissible values is what
`GeminiService.generatePlan` performs, so it is kept as `String` here. -/
structure PlanItem where
  file : String
  action : String
  description : String
deriving DecidableEq, Repr

/-- Structure `WorkflowState` from types.ts. -/
structure WorkflowState where
  phase : Phase
  userRequest : String
  clarificationQuestions : List String
  clarificationAnswers : List String
  plan : List PlanItem
deriving DecidableEq, Repr

/-! ## Context Aggregator (src/codebaseAnalyzer.ts) -/

/-- Structure `FileInfo` from codebaseAnalyzer.ts. -/
structure FileInfo where
  path : String
  content : String
  language : String
  size : Nat
deriving DecidableEq, Repr

/-- Structure `CodebaseContext` from codebaseAnalyzer.ts (`structure` is a Lean
keyword, hence the field name `structureText`). -/
structure CodebaseContext where
  projectType : String
  frameworks : List String
  languages : List String
  keyFiles : List FileInfo
  structureText : String
  dependencies : List String
deriving DecidableEq, Repr

namespace CodebaseAnalyzer

/-- Constant `private readonly maxFileSize = 50000`. -/
def maxFileSize : Nat := 50000

/-- Constant `private readonly maxTotalFiles = 20`. -/
def maxTotalFiles : Nat := 20

/-- A candidate file returned by `vscode.workspace.findFiles` for one
pattern: its stat size and content as the filesystem would deliver them,
with `readable = false` when `fs.stat` or `fs.readFile` would throw. -/
structure FileCand where
  path : String
  size : Nat
  content : String
  language : String
  readable : Bool
deriving DecidableEq, Repr

/-- The record `findKeyFiles` pushes for an accepted candidate. -/
def toFileInfo (f : FileCand) : FileInfo :=
  { path := f.path, content := f.content, language := f.language, size := f.size }

/-- The inner loop of `findKeyFiles` over one pattern's results:
break once `maxTotalFiles` is reached, skip unreadable files, skip files
whose stat size exceeds `maxFileSize`, otherwise push the file whole. -/
def addPatternFiles (files : List FileInfo) : List FileCand → List FileInfo
  | [] => files
  | f :: rest =>
    if maxTotalFiles ≤ files.length then files
    else if !f.readable then addPatternFiles files rest
    else if maxFileSize < f.size then addPatternFiles files rest
    else addPatternFiles (files ++ [toFileInfo f]) rest

/-- Method `findKeyFiles`, over the per-pattern results of
`vscode.workspace.findFiles` in pattern order: the accumulating loop
followed by the final `files.slice(0, this.maxTotalFiles)`. -/
def findKeyFiles (foundFiles : List (List FileCand)) : List FileInfo :=
  (foundFiles.foldl addPatternFiles []).take maxTotalFiles

end CodebaseAnalyzer

/-! ## Generation Adapter (src/geminiService.ts) -/

namespace GeminiService

/-- The `request.includes("auth")` bucket of
`getFallbackClarificationQuestions`. -/
def authClarificationQuestions : List String :=
  ["Which authentication service would you like to use (Auth0, Firebase, or build custom)?",
   "Do you need social login options like Google or GitHub?",
   "Should this work with your existing user database?"]

/-- The `request.includes("api") || request.includes("endpoint")` bucket. -/
def apiClarificationQuestions : List String :=
  ["Do you prefer a REST API or GraphQL for this feature?",
   "What database should this connect to?",
   "Do you need authentication/authorization on these endpoints?"]

/-- The `request.includes("database") || request.includes("db")` bucket. -/
def databaseClarificationQuestions : List String :=
  ["Which database system are you using (PostgreSQL, MongoDB, MySQL)?",
   "Do you need migration scripts for existing data?",
   "What ORM or database client do you prefer (Prisma, TypeORM, etc.)?"]

/-- The final, keyword-free bucket of `getFallbackClarificationQuestions`. -/
def genericClarificationQuestions : List String :=
  ["What technology stack should this use?",
   "Do you need this to work with existing code or systems?",
   "Are there any specific requirements or constraints?"]

/-- Method `private getFallbackClarificationQuestions(userRequest)`. -/
def getFallbackClarificationQuestions (userRequest : String) : List String :=
  let request := jsToLower userRequest
  if jsIncludes request "auth" then
    authClarificationQuestions
  else if jsIncludes request "api" || jsIncludes request "endpoint" then
    apiClarificationQuestions
  else if jsIncludes request "database" || jsIncludes request "db" then
    databaseClarificationQuestions
  else
    genericClarificationQuestions

/-- The 6-item `request.includes("auth")` plan of `getFallbackPlan`. -/
def authFallbackPlan : List PlanItem :=
  [{ file := "src/types/auth.ts", action := "new",
     description := "Define authentication types and user interfaces" },
   { file := "src/lib/auth.ts", action := "new",
     description := "Create Auth0 integration service with login/logout methods" },
   { file := "src/components/LoginForm.tsx", action := "new",
     description := "Create login form component with Auth0 integration" },
   { file := "src/components/ProtectedRoute.tsx", action := "new",
     description := "Create route protection component for authenticated pages" },
   { file := "src/App.tsx", action := "modify",
     description := "Add Auth0 provider and protected routing configuration" },
   { file := "src/utils/localAuth.ts", action := "remove",
     description := "Remove old local authentication utilities" }]

/-- The 3-item default plan of `getFallbackPlan`. -/
def genericFallbackPlan : List PlanItem :=
  [{ file := "src/components/NewFeature.tsx", action := "new",
     description := "Create main component for the requested feature" },
   { file := "src/types/feature.ts", action := "new",
     description := "Define TypeScript types for the new feature" },
   { file := "src/App.tsx", action := "modify",
     description := "Integrate new feature into main application" }]

/-- Method `private getFallbackPlan(userRequest)`: only two branches exist, the
`auth` keyword bucket and the default. -/
def getFallbackPlan (userRequest : String) : List PlanItem :=
  let request := jsToLower userRequest
  if jsIncludes request "auth" then authFallbackPlan
  else genericFallbackPlan

/-- One element of the array `JSON.parse` produced inside `generatePlan`,
before validation: `isTruthy` is the JavaScript truthiness of the element
(the `item &&` guard), and each field is `some s` exactly when the element
carries that property with a string value (the `typeof ... === "string"`
guards). -/
structure RawPlanItem where
  isTruthy : Bool
  file : Option String
  action : Option String
  description : Option String
deriving DecidableEq, Repr

/-- The `filter` predicate of `generatePlan`'s validation:
`item && typeof item.file === "string" && typeof item.action === "string"
&& typeof item.description === "string" &&
["new", "modify", "remove"].includes(item.action)`. -/
def validRawItem (item : RawPlanItem) : Bool :=
  item.isTruthy && item.file.isSome && item.action.isSome && item.description.isSome &&
    ["new", "modify", "remove"].contains (item.action.getD "")

/-- The `map` step of `generatePlan`'s validation: trim `file` and
`description`, keep `action` as is (the TypeScript `as` cast). -/
def normalizeRawItem (item : RawPlanItem) : PlanItem :=
  { file := jsTrim (item.file.getD ""),
    action := item.action.getD "",
    description := jsTrim (item.description.getD "") }

/-- The `validatedPlan` computed inside `generatePlan`:
`planData.filter(...).map(...)`. -/
def validatedPlan (planData : List RawPlanItem) : List PlanItem :=
  (planData.filter validRawItem).map normalizeRawItem

/-- Method `generateClarificationQuestions(userRequest)`.  Here `backend = none` stands
for every path that reaches the fallback before line filtering: the
uninitialized model as well as a thrown `generateContent` call.
`backend = some text` is the raw text of a successful backend response. -/
def generateClarificationQuestions (userRequest : String) (backend : Option String) :
    List String :=
  match backend with
  | none => getFallbackClarificationQuestions userRequest
  | some text =>
    let questions :=
      (((jsSplit text '\n').map jsTrim).filter
        (fun q => 0 < q.length && jsIncludes q "?")).take 3
    if 0 < questions.length then questions
    else getFallbackClarificationQuestions userRequest

/-- Method `generatePlan(userRequest, clarificationAnswers)`.  Here `backend = none`
stands for every path the `catch` turns into the fallback (uninitialized
model, thrown call, no bracketed array, `JSON.parse` failure, non-array
result); `backend = some planData` is a successfully parsed array.  The
answers only influence the prompt, never the result shape. -/
def generatePlan (userRequest : String) (clarificationAnswers : List String)
    (backend : Option (List RawPlanItem)) : List PlanItem :=
  match backend with
  | none => getFallbackPlan userRequest
  | some planData =>
    let validated := validatedPlan planData
    if validated.length = 0 then getFallbackPlan userRequest
    else validated

/-- The four keyword buckets of the fallback path, named as the spec names
them.  Derived classifier used to state that both fallbacks are selected by
keyword matching; it mirrors the shared `userRequest.toLowerCase()`
keyword tests of `getFallbackClarificationQuestions`. -/
inductive FallbackBucket
  | authentication
  | apiEndpoint
  | database
  | generic
deriving DecidableEq, Repr

/-- The bucket the lowercased request text falls into, testing the keyword
conditions in source order. -/
def bucketOf (userRequest : String) : FallbackBucket :=
  let request := jsToLower userRequest
  if jsIncludes request "auth" then .authentication
  else if jsIncludes request "api" || jsIncludes request "endpoint" then .apiEndpoint
  else if jsIncludes request "database" || jsIncludes request "db" then .database
  else .generic

/-- The clarification-question list each bucket yields. -/
def questionsForBucket : FallbackBucket → List String
  | .authentication => authClarificationQuestions
  | .apiEndpoint => apiClarificationQuestions
  | .database => databaseClarificationQuestions
  | .generic => genericClarificationQuestions

/-- The plan each bucket yields: `getFallbackPlan` only distinguishes the
authentication bucket, every other bucket shares the default plan. -/
def planForBucket : FallbackBucket → List PlanItem
  | .authentication => authFallbackPlan
  | _ => genericFallbackPlan

end GeminiService

/-! ## Workflow Engine (src/plannerProvider.ts, `PlannerProvider`) -/

/-- One recorded invocation of the Generation Adapter, with the context
argument the call passed (the `codebaseContext?` parameter). -/
inductive AdapterCall
  | clarify (request : String) (context : Option CodebaseContext)
  | plan (request : String) (answers : List String) (context : Option CodebaseContext)
deriving DecidableEq, Repr

/-- The context argument an adapter invocation received. -/
def AdapterCall.context : AdapterCall → Option CodebaseContext
  | .clarify _ ctx => ctx
  | .plan _ _ ctx => ctx

/-- The observable state of one `PlannerProvider`: its `workflowState`
field, the persisted blob under `traycer.workflowState` together with the
log of every state ever written to it, the Generation Adapter invocations
it made, how often it invoked `CodebaseAnalyzer.analyzeWorkspace`, the
`applyPlanItem` attempts it issued (item paired with that attempt's
outcome), and the last reported `success/total` execution count. -/
structure Engine where
  workflowState : WorkflowState
  storage : Option WorkflowState
  savedLog : List WorkflowState
  adapterCalls : List AdapterCall
  analyzerCalls : Nat
  applied : List (PlanItem × Bool)
  lastReport : Option (Nat × Nat)
deriving DecidableEq, Repr

namespace PlannerProvider

/-- The field initializer of `private workflowState`. -/
def initialWorkflowState : WorkflowState :=
  { phase := .idle, userRequest := "", clarificationQuestions := [],
    clarificationAnswers := [], plan := [] }

/-- Method `private saveWorkflowState()`: full overwrite of the persisted blob;
the write is also appended to the log. -/
def saveWorkflowState (e : Engine) : Engine :=
  { e with storage := some e.workflowState, savedLog := e.savedLog ++ [e.workflowState] }

/-- The constructor together with `loadWorkflowState()`: a fresh provider
starts from the field initializer and, when a persisted state exists,
replaces its state with it. -/
def newPlannerProvider (storage : Option WorkflowState) : Engine :=
  let base : Engine :=
    { workflowState := initialWorkflowState, storage := storage, savedLog := [],
      adapterCalls := [], analyzerCalls := 0, applied := [], lastReport := none }
  match storage with
  | some savedState => { base with workflowState := savedState }
  | none => base

/-- Method `private resetWorkflowState()`. -/
def resetWorkflowState (e : Engine) : Engine :=
  saveWorkflowState { e with workflowState := initialWorkflowState }

/-- Method `async generatePlan()`, the `idle → clarification` start transition.
`userInput` is the `showInputBox` result (`none` = dismissed; an accepted
value passed the box's 10-character `validateInput`).  `questions` is the
awaited `geminiService.generateClarificationQuestions(userRequest)` result;
an empty list triggers the `throw` that the `catch` turns into a reversion
to `idle`.  The adapter is invoked with no context argument. -/
def generatePlan (e : Engine) (userInput : Option String) (questions : List String) :
    Engine :=
  if e.workflowState.phase ≠ Phase.idle then e
  else
    match userInput with
    | none => e
    | some userRequest =>
      if userRequest = "" then e
      else
        let s1 : WorkflowState :=
          { e.workflowState with
            userRequest := jsTrim userRequest, phase := .clarification,
            clarificationQuestions := [], clarificationAnswers := [] }
        let e1 := saveWorkflowState { e with workflowState := s1 }
        let e2 := { e1 with adapterCalls := e1.adapterCalls ++ [AdapterCall.clarify userRequest none] }
        if questions.length = 0 then
          saveWorkflowState { e2 with workflowState := { e2.workflowState with phase := .idle } }
        else
          saveWorkflowState
            { e2 with workflowState :=
              { e2.workflowState with clarificationQuestions := questions } }

/-- Method `async answerNextQuestion()`.  Here `input` is the `showInputBox` result
(`none` = dismissed; the box's `validateInput` demands a trimmed length of
at least 2, and the code's own `if (!answer)` guard is kept as the
emptiness test). -/
def answerNextQuestion (e : Engine) (input : Option String) : Engine :=
  if e.workflowState.phase ≠ Phase.clarification then e
  else if e.workflowState.clarificationQuestions.length ≤
      e.workflowState.clarificationAnswers.length then e
  else
    match input with
    | none => e
    | some answer =>
      if answer = "" then e
      else
        saveWorkflowState
          { e with workflowState :=
            { e.workflowState with
              clarificationAnswers := e.workflowState.clarificationAnswers ++ [jsTrim answer] } }

/-- Method `async submitClarification()`, the `clarification → planning → ready`
transition.  `plan` is the awaited `geminiService.generatePlan(...)`
result; an empty list triggers the `throw` that the `catch` turns into a
reversion to `clarification`.  The adapter is invoked with the stored
request and answers and no context argument. -/
def submitClarification (e : Engine) (plan : List PlanItem) : Engine :=
  if e.workflowState.phase ≠ Phase.clarification then e
  else if e.workflowState.clarificationAnswers.length ≠
      e.workflowState.clarificationQuestions.length then e
  else
    let e1 := saveWorkflowState { e with workflowState := { e.workflowState with phase := .planning } }
    let e2 :=
      { e1 with adapterCalls := e1.adapterCalls ++
        [AdapterCall.plan e1.workflowState.userRequest e1.workflowState.clarificationAnswers none] }
    if plan.length = 0 then
      saveWorkflowState { e2 with workflowState := { e2.workflowState with phase := .clarification } }
    else
      saveWorkflowState
        { e2 with workflowState := { e2.workflowState with plan := plan, phase := .ready } }

/-- Method `async executeToIDE()`.  Here `confirmed` is the modal confirmation;
`applySucceeds i` is whether `fileManipulator.applyPlanItem` succeeds on
the plan's `i`-th item (a failed item is caught per-item and the loop
continues).  The reported count pair and the reset follow the loop. -/
def executeToIDE (e : Engine) (confirmed : Bool) (applySucceeds : Nat → Bool) : Engine :=
  if e.workflowState.phase ≠ Phase.ready ∨ e.workflowState.plan.length = 0 then e
  else if !confirmed then e
  else
    let attempts := e.workflowState.plan.enum.map (fun p => (p.2, applySucceeds p.1))
    let successCount := (attempts.filter (fun a => a.2)).length
    let e1 :=
      { e with applied := e.applied ++ attempts,
               lastReport := some (successCount, e.workflowState.plan.length) }
    resetWorkflowState e1

/-- Method `async restartWorkflow()`. -/
def restartWorkflow (e : Engine) (confirmed : Bool) : Engine :=
  if confirmed then resetWorkflowState e else e

/-- One front-end command dispatched to the provider, with the external
collaborators' replies it would observe. -/
inductive PlannerOp
  | start (userInput : Option String) (questions : List String)
  | answer (input : Option String)
  | submit (plan : List PlanItem)
  | execute (confirmed : Bool) (applySucceeds : Nat → Bool)
  | restart (confirmed : Bool)

/-- Dispatch one command. -/
def step (e : Engine) : PlannerOp → Engine
  | .start u q => generatePlan e u q
  | .answer i => answerNextQuestion e i
  | .submit p => submitClarification e p
  | .execute c f => executeToIDE e c f
  | .restart c => restartWorkflow e c

/-- Run a session: a sequence of front-end commands in order. -/
def runOps (e : Engine) (ops : List PlannerOp) : Engine := ops.foldl step e

/-- Fold of `answerNextQuestion` over a sequence of input-box results. -/
def runAnswers (e : Engine) (inputs : List (Option String)) : Engine :=
  inputs.foldl answerNextQuestion e

/-- The inputs a sequence of `answerNextQuestion` input boxes accepts, in
call order, trimmed as the code stores them: dismissed boxes and empty
strings are dropped. -/
def acceptedAnswers (inputs : List (Option String)) : List String :=
  ((inputs.filterMap id).filter (fun a => a != "")).map jsTrim

/-- The state the start transition persists before the question generation
completes: the new trimmed request, phase `clarification`, cleared
questions and answers. -/
def startMidState (s : WorkflowState) (userRequest : String) : WorkflowState :=
  { s with
    userRequest := jsTrim userRequest, phase := .clarification,
    clarificationQuestions := [], clarificationAnswers := [] }

end PlannerProvider

/-! ## Concrete sample inputs used by witnesses and counterexamples -/

/-- A raw backend plan element whose three fields are strings and whose
action is admissible, but whose `file` and `description` are empty. -/
def emptyFieldsRawItem : GeminiService.RawPlanItem :=
  { isTruthy := true, file := some "", action := some "new", description := some "" }

/-- A fresh provider with nothing persisted. -/
def sampleIdleEngine : Engine := PlannerProvider.newPlannerProvider none

/-- A clarification-phase state whose single question is answered. -/
def sampleClarFullState : WorkflowState :=
  { phase := .clarification, userRequest := "Add Auth0 login",
    clarificationQuestions := ["Should this work with your existing user database?"],
    clarificationAnswers := ["Yes"], plan := [] }

/-- A provider sitting in `sampleClarFullState`. -/
def sampleClarFullEngine : Engine :=
  { workflowState := sampleClarFullState, storage := some sampleClarFullState,
    savedLog := [], adapterCalls := [], analyzerCalls := 0, applied := [],
    lastReport := none }

/-- A clarification-phase state with two questions and no answers yet. -/
def sampleClarPendingState : WorkflowState :=
  { phase := .clarification, userRequest := "Add Auth0 login",
    clarificationQuestions :=
      ["Which authentication service would you like to use (Auth0, Firebase, or build custom)?",
       "Do you need social login options like Google or GitHub?"],
    clarificationAnswers := [], plan := [] }

/-- A provider sitting in `sampleClarPendingState`. -/
def sampleClarPendingEngine : Engine :=
  { workflowState := sampleClarPendingState, storage := some sampleClarPendingState,
    savedLog := [], adapterCalls := [], analyzerCalls := 0, applied := [],
    lastReport := none }

/-- A ready-phase state holding a two-item plan. -/
def sampleReadyState : WorkflowState :=
  { phase := .ready, userRequest := "Add Auth0 login",
    clarificationQuestions := [], clarificationAnswers := [],
    plan :=
      [{ file := "src/lib/auth.ts", action := "new",
         description := "Create Auth0 integration service with login/logout methods" },
       { file := "src/App.tsx", action := "modify",
         description := "Add Auth0 provider and protected routing configuration" }] }

/-- A provider sitting in `sampleReadyState`. -/
def sampleReadyEngine : Engine :=
  { workflowState := sampleReadyState, storage := some sampleReadyState,
    savedLog := [], adapterCalls := [], analyzerCalls := 0, applied := [],
    lastReport := none }

/-- An `applyPlanItem` outcome function that fails exactly on the first
plan item and succeeds on every other. -/
def failFirstItem : Nat → Bool := fun i => decide (0 < i)

/-- The input-box results a sample answering session produces: one
accepted answer, a dismissed box, an empty string, a padded accepted
answer, and one attempt beyond the question count. -/
def sampleAnswerInputs : List (Option String) :=
  [some "Auth0", none, some "", some "  only GitHub  ", some "extra"]

/-! ## Generation Adapter: fallback lemmas -/

namespace GeminiService

/-- The fallback questions are a function of the four-way keyword bucket. -/
theorem getFallbackClarificationQuestions_bucket (userRequest : String) :
    getFallbackClarificationQuestions userRequest =
      questionsForBucket (bucketOf userRequest) := by
  unfold getFallbackClarificationQuestions bucketOf
  cases h1 : jsIncludes (jsToLower userRequest) "auth" <;>
    cases h2 : jsIncludes (jsToLower userRequest) "api" ||
        jsIncludes (jsToLower userRequest) "endpoint" <;>
      cases h3 : jsIncludes (jsToLower userRequest) "database" ||
          jsIncludes (jsToLower userRequest) "db" <;>
        simp [h1, h2, h3, questionsForBucket]

/-- The fallback plan is a function of the same four-way keyword bucket:
only the authentication bucket is distinguished. -/
theorem getFallbackPlan_bucket (userRequest : String) :
    getFallbackPlan userRequest = planForBucket (bucketOf userRequest) := by
  unfold getFallbackPlan bucketOf
  cases h1 : jsIncludes (jsToLower userRequest) "auth" <;>
    cases h2 : jsIncludes (jsToLower userRequest) "api" ||
        jsIncludes (jsToLower userRequest) "endpoint" <;>
      cases h3 : jsIncludes (jsToLower userRequest) "database" ||
          jsIncludes (jsToLower userRequest) "db" <;>
        simp [h1, h2, h3, planForBucket]

/-- Every fallback question bucket has exactly 3 questions, each non-empty
and containing a question mark. -/
theorem getFallbackClarificationQuestions_shape (userRequest : String) :
    (getFallbackClarificationQuestions userRequest).length = 3 ∧
    ∀ q ∈ getFallbackClarificationQuestions userRequest,
      q ≠ "" ∧ jsIncludes q "?" = true := by
  rw [getFallbackClarificationQuestions_bucket]
  cases bucketOf userRequest <;> decide

/-- Both fallback plans are non-empty and every item has an admissible
action and non-empty file and description. -/
theorem getFallbackPlan_shape (userRequest : String) :
    getFallbackPlan userRequest ≠ [] ∧
    ∀ p ∈ getFallbackPlan userRequest,
      (p.action = "new" ∨ p.action = "modify" ∨ p.action = "remove") ∧
      p.file ≠ "" ∧ p.description ≠ "" := by
  rw [getFallbackPlan_bucket]
  cases bucketOf userRequest <;> decide

end GeminiService

/-! ## Claim theorems -/

open GeminiService PlannerProvider

/-- C1, counterexample: a parsed element whose `file` and `description`
are empty strings (but whose fields are strings and whose action is
`"new"`) is kept by `generatePlan`'s validation, so the returned plan can
contain items with empty `file` and `description`. -/
theorem C1_counterexample_empty_fields_kept :
    ¬ ∀ p ∈ GeminiService.generatePlan "Add Auth0 login" [] (some [emptyFieldsRawItem]),
        p.file ≠ "" ∧ p.description ≠ "" := by decide

/-- C1, amended: `GeminiService.generatePlan` keeps a parsed element
exactly when the element is truthy, its `file`, `action` and
`description` are strings, and its `action` is one of `"new"`,
`"modify"`, `"remove"`; failing elements are dropped, never defaulted or
repaired, and every returned item has an admissible action and stems from
a kept element with `file` and `description` merely trimmed — their
non-emptiness is not checked. -/
theorem C1_validation_amended (planData : List RawPlanItem) :
    (validatedPlan planData).length = planData.countP validRawItem ∧
    ∀ p ∈ validatedPlan planData,
      (p.action = "new" ∨ p.action = "modify" ∨ p.action = "remove") ∧
      ∃ item ∈ planData, validRawItem item = true ∧ p = normalizeRawItem item := by
  constructor
  · simp [validatedPlan, List.countP_eq_length_filter]
  · intro p hp
    simp only [validatedPlan, List.mem_map] at hp
    obtain ⟨item, hmem, hnorm⟩ := hp
    rw [List.mem_filter] at hmem
    obtain ⟨hin, hvalid⟩ := hmem
    refine ⟨?_, item, hin, hvalid, hnorm.symm⟩
    have hact : ["new", "modify", "remove"].contains (item.action.getD "") = true := by
      simp only [validRawItem, Bool.and_eq_true] at hvalid
      exact hvalid.2
    have hmemact := List.mem_of_elem_eq_true hact
    have hpa : p.action = item.action.getD "" := by
      rw [← hnorm]
      simp [normalizeRawItem]
    simp only [List.mem_cons, List.not_mem_nil, or_false] at hmemact
    rw [hpa]
    exact hmemact

/-- C5: `generateClarificationQuestions` always returns between 1 and 3
strings each containing a question mark, and with the backend unavailable
a request containing "auth" (case-insensitively) yields exactly the 3
fixed authentication fallback questions. -/
theorem C5_question_shape (userRequest : String) (backend : Option String) :
    (1 ≤ (generateClarificationQuestions userRequest backend).length ∧
      (generateClarificationQuestions userRequest backend).length ≤ 3) ∧
    (∀ q ∈ generateClarificationQuestions userRequest backend,
      jsIncludes q "?" = true) ∧
    (backend = none → jsIncludes (jsToLower userRequest) "auth" = true →
      generateClarificationQuestions userRequest backend =
        authClarificationQuestions) := by
  obtain ⟨hlen, hq⟩ := getFallbackClarificationQuestions_shape userRequest
  cases backend with
  | none =>
    refine ⟨⟨?_, ?_⟩, ?_, ?_⟩
    · show 1 ≤ (getFallbackClarificationQuestions userRequest).length
      omega
    · show (getFallbackClarificationQuestions userRequest).length ≤ 3
      omega
    · intro q hmem
      exact (hq q hmem).2
    · intro _ hauth
      show getFallbackClarificationQuestions userRequest = authClarificationQuestions
      unfold getFallbackClarificationQuestions
      simp [hauth]
  | some text =>
    simp only [generateClarificationQuestions]
    split
    · next hpos =>
      refine ⟨⟨hpos, List.length_take_le 3 _⟩, ?_, ?_⟩
      · intro q hmem
        have hmem' := List.mem_of_mem_take hmem
        have hpred := List.of_mem_filter hmem'
        exact (Bool.and_eq_true _ _ |>.mp hpred).2
      · intro hcontra
        exact absurd hcontra (by simp)
    · refine ⟨⟨by omega, by omega⟩, ?_, ?_⟩
      · intro q hmem
        exact (hq q hmem).2
      · intro hcontra
        exact absurd hcontra (by simp)

/-- C5, witness: the auth request with the backend unavailable yields the
fixed authentication fallback questions. -/
theorem C5_question_shape_witness :
    generateClarificationQuestions "Add user authentication with Auth0" none =
      authClarificationQuestions :=
  (C5_question_shape "Add user authentication with Auth0" none).2.2 rfl (by decide)

/-- C6: with the backend uninitialized, both operations return a
deterministic fallback that factors through the four keyword buckets
(authentication, API/endpoint, database, generic) matched against the
lowercased request text; the fallback is never empty and satisfies the
result schema (questions are non-empty strings with a question mark, plan
items carry an admissible action and non-empty file and description). -/
theorem C6_fallback_schema (userRequest : String) (answers : List String) :
    (generateClarificationQuestions userRequest none =
        questionsForBucket (bucketOf userRequest) ∧
      GeminiService.generatePlan userRequest answers none =
        planForBucket (bucketOf userRequest)) ∧
    (generateClarificationQuestions userRequest none ≠ [] ∧
      GeminiService.generatePlan userRequest answers none ≠ []) ∧
    (∀ q ∈ generateClarificationQuestions userRequest none,
      q ≠ "" ∧ jsIncludes q "?" = true) ∧
    (∀ p ∈ GeminiService.generatePlan userRequest answers none,
      (p.action = "new" ∨ p.action = "modify" ∨ p.action = "remove") ∧
      p.file ≠ "" ∧ p.description ≠ "") := by
  have hqe : generateClarificationQuestions userRequest none =
      getFallbackClarificationQuestions userRequest := rfl
  have hpe : GeminiService.generatePlan userRequest answers none =
      getFallbackPlan userRequest := rfl
  obtain ⟨hlen, hq⟩ := getFallbackClarificationQuestions_shape userRequest
  obtain ⟨hpn, hp⟩ := getFallbackPlan_shape userRequest
  refine ⟨⟨?_, ?_⟩, ⟨?_, ?_⟩, ?_, ?_⟩
  · rw [hqe, getFallbackClarificationQuestions_bucket]
  · rw [hpe, getFallbackPlan_bucket]
  · rw [hqe]
    intro hnil
    rw [hnil] at hlen
    simp at hlen
  · rw [hpe]
    exact hpn
  · rw [hqe]
    exact hq
  · rw [hpe]
    exact hp

/-- C10: the fallback keyword buckets are tested in source order —
authentication, then API/endpoint, then database, then generic — by
case-insensitive substring matching on the request text, so any request
whose lowercased text contains "auth" (also inside a longer word) gets
the authentication bucket from both fallbacks even when it also matches
later keywords. -/
theorem C10_bucket_order (userRequest : String) :
    (jsIncludes (jsToLower userRequest) "auth" = true →
      getFallbackClarificationQuestions userRequest = authClarificationQuestions ∧
      getFallbackPlan userRequest = authFallbackPlan) ∧
    (jsIncludes (jsToLower userRequest) "auth" = false →
      (jsIncludes (jsToLower userRequest) "api" ||
          jsIncludes (jsToLower userRequest) "endpoint") = true →
      getFallbackClarificationQuestions userRequest = apiClarificationQuestions ∧
      getFallbackPlan userRequest = genericFallbackPlan) ∧
    (jsIncludes (jsToLower userRequest) "auth" = false →
      (jsIncludes (jsToLower userRequest) "api" ||
          jsIncludes (jsToLower userRequest) "endpoint") = false →
      (jsIncludes (jsToLower userRequest) "database" ||
          jsIncludes (jsToLower userRequest) "db") = true →
      getFallbackClarificationQuestions userRequest = databaseClarificationQuestions ∧
      getFallbackPlan userRequest = genericFallbackPlan) ∧
    (jsIncludes (jsToLower userRequest) "auth" = false →
      (jsIncludes (jsToLower userRequest) "api" ||
          jsIncludes (jsToLower userRequest) "endpoint") = false →
      (jsIncludes (jsToLower userRequest) "database" ||
          jsIncludes (jsToLower userRequest) "db") = false →
      getFallbackClarificationQuestions userRequest = genericClarificationQuestions ∧
      getFallbackPlan userRequest = genericFallbackPlan) := by
  refine ⟨?_, ?_, ?_, ?_⟩
  · intro h1
    unfold getFallbackClarificationQuestions getFallbackPlan
    simp [h1]
  · intro h1 h2
    unfold getFallbackClarificationQuestions getFallbackPlan
    simp [h1, h2]
  · intro h1 h2 h3
    unfold getFallbackClarificationQuestions getFallbackPlan
    simp [h1, h2, h3]
  · intro h1 h2 h3
    unfold getFallbackClarificationQuestions getFallbackPlan
    simp [h1, h2, h3]

/-! ## Workflow Engine helper lemmas -/

/-- A fresh provider has made no analyzer invocation. -/
theorem newPlannerProvider_analyzerCalls (storage : Option WorkflowState) :
    (newPlannerProvider storage).analyzerCalls = 0 := by
  cases storage <;> rfl

/-- A fresh provider has made no adapter invocation. -/
theorem newPlannerProvider_adapterCalls (storage : Option WorkflowState) :
    (newPlannerProvider storage).adapterCalls = [] := by
  cases storage <;> rfl

/-- The start transition never touches the analyzer counter and extends
the adapter log by at most one clarification call carrying no context. -/
theorem generatePlan_calls (e : Engine) (u : Option String) (qs : List String) :
    (PlannerProvider.generatePlan e u qs).analyzerCalls = e.analyzerCalls ∧
    ((PlannerProvider.generatePlan e u qs).adapterCalls = e.adapterCalls ∨
      ∃ r, (PlannerProvider.generatePlan e u qs).adapterCalls =
        e.adapterCalls ++ [AdapterCall.clarify r none]) := by
  unfold PlannerProvider.generatePlan
  split
  · exact ⟨rfl, Or.inl rfl⟩
  · cases u with
    | none => exact ⟨rfl, Or.inl rfl⟩
    | some req =>
      dsimp only
      split
      · exact ⟨rfl, Or.inl rfl⟩
      · split
        · exact ⟨rfl, Or.inr ⟨req, rfl⟩⟩
        · exact ⟨rfl, Or.inr ⟨req, rfl⟩⟩

/-- Answering touches neither the analyzer counter nor the adapter log. -/
theorem answerNextQuestion_calls (e : Engine) (i : Option String) :
    (answerNextQuestion e i).analyzerCalls = e.analyzerCalls ∧
    (answerNextQuestion e i).adapterCalls = e.adapterCalls := by
  unfold answerNextQuestion
  split
  · exact ⟨rfl, rfl⟩
  · split
    · exact ⟨rfl, rfl⟩
    · cases i with
      | none => exact ⟨rfl, rfl⟩
      | some a =>
        dsimp only
        split
        · exact ⟨rfl, rfl⟩
        · exact ⟨rfl, rfl⟩

/-- The submit transition never touches the analyzer counter and extends
the adapter log by at most one plan call carrying no context. -/
theorem submitClarification_calls (e : Engine) (pl : List PlanItem) :
    (submitClarification e pl).analyzerCalls = e.analyzerCalls ∧
    ((submitClarification e pl).adapterCalls = e.adapterCalls ∨
      ∃ r a, (submitClarification e pl).adapterCalls =
        e.adapterCalls ++ [AdapterCall.plan r a none]) := by
  unfold submitClarification
  split
  · exact ⟨rfl, Or.inl rfl⟩
  · split
    · exact ⟨rfl, Or.inl rfl⟩
    · split
      · exact ⟨rfl, Or.inr ⟨_, _, rfl⟩⟩
      · exact ⟨rfl, Or.inr ⟨_, _, rfl⟩⟩

/-- Execution touches neither the analyzer counter nor the adapter log. -/
theorem executeToIDE_calls (e : Engine) (c : Bool) (f : Nat → Bool) :
    (executeToIDE e c f).analyzerCalls = e.analyzerCalls ∧
    (executeToIDE e c f).adapterCalls = e.adapterCalls := by
  unfold executeToIDE
  split
  · exact ⟨rfl, rfl⟩
  · split
    · exact ⟨rfl, rfl⟩
    · exact ⟨rfl, rfl⟩

/-- Restart touches neither the analyzer counter nor the adapter log. -/
theorem restartWorkflow_calls (e : Engine) (c : Bool) :
    (restartWorkflow e c).analyzerCalls = e.analyzerCalls ∧
    (restartWorkflow e c).adapterCalls = e.adapterCalls := by
  unfold restartWorkflow
  split
  · exact ⟨rfl, rfl⟩
  · exact ⟨rfl, rfl⟩

/-- Any single command preserves the analyzer counter, and every adapter
call it may add carries no context. -/
theorem step_calls (e : Engine) (op : PlannerOp) :
    (step e op).analyzerCalls = e.analyzerCalls ∧
    ∀ c ∈ (step e op).adapterCalls, c ∈ e.adapterCalls ∨ AdapterCall.context c = none := by
  cases op with
  | start u qs =>
    obtain ⟨ha, hc⟩ := generatePlan_calls e u qs
    refine ⟨ha, ?_⟩
    intro c hcmem
    have hcmem' : c ∈ (PlannerProvider.generatePlan e u qs).adapterCalls := hcmem
    rcases hc with h | ⟨r, h⟩
    · rw [h] at hcmem'
      exact Or.inl hcmem'
    · rw [h] at hcmem'
      rcases List.mem_append.mp hcmem' with h' | h'
      · exact Or.inl h'
      · simp only [List.mem_singleton] at h'
        subst h'
        exact Or.inr rfl
  | answer i =>
    obtain ⟨ha, hc⟩ := answerNextQuestion_calls e i
    refine ⟨ha, ?_⟩
    intro c hcmem
    have hcmem' : c ∈ (answerNextQuestion e i).adapterCalls := hcmem
    rw [hc] at hcmem'
    exact Or.inl hcmem'
  | submit pl =>
    obtain ⟨ha, hc⟩ := submitClarification_calls e pl
    refine ⟨ha, ?_⟩
    intro c hcmem
    have hcmem' : c ∈ (submitClarification e pl).adapterCalls := hcmem
    rcases hc with h | ⟨r, a, h⟩
    · rw [h] at hcmem'
      exact Or.inl hcmem'
    · rw [h] at hcmem'
      rcases List.mem_append.mp hcmem' with h' | h'
      · exact Or.inl h'
      · simp only [List.mem_singleton] at h'
        subst h'
        exact Or.inr rfl
  | execute c f =>
    obtain ⟨ha, hc⟩ := executeToIDE_calls e c f
    refine ⟨ha, ?_⟩
    intro c' hcmem
    have hcmem' : c' ∈ (executeToIDE e c f).adapterCalls := hcmem
    rw [hc] at hcmem'
    exact Or.inl hcmem'
  | restart c =>
    obtain ⟨ha, hc⟩ := restartWorkflow_calls e c
    refine ⟨ha, ?_⟩
    intro c' hcmem
    have hcmem' : c' ∈ (restartWorkflow e c).adapterCalls := hcmem
    rw [hc] at hcmem'
    exact Or.inl hcmem'

/-- Over any command sequence the analyzer counter is preserved and every
adapter call either predates the run or carries no context. -/
theorem runOps_calls (ops : List PlannerOp) (e : Engine) :
    (runOps e ops).analyzerCalls = e.analyzerCalls ∧
    ∀ c ∈ (runOps e ops).adapterCalls,
      c ∈ e.adapterCalls ∨ AdapterCall.context c = none := by
  induction ops generalizing e with
  | nil => exact ⟨rfl, fun c hc => Or.inl hc⟩
  | cons op rest ih =>
    obtain ⟨ha1, hc1⟩ := step_calls e op
    obtain ⟨ha2, hc2⟩ := ih (step e op)
    have hrun : runOps e (op :: rest) = runOps (step e op) rest := rfl
    rw [hrun]
    refine ⟨ha2.trans ha1, ?_⟩
    intro c hcmem
    rcases hc2 c hcmem with h | h
    · rcases hc1 c h with h' | h'
      · exact Or.inl h'
      · exact Or.inr h'
    · exact Or.inr h

/-- The number of successful `applyPlanItem` attempts the execute loop
counts equals the count of plan positions on which application succeeds. -/
theorem execute_successCount (plan : List PlanItem) (f : Nat → Bool) :
    ((plan.enum.map (fun p => (p.2, f p.1))).filter (fun a => a.2)).length =
      (List.range plan.length).countP f := by
  rw [← List.countP_eq_length_filter, List.countP_map, ← List.enum_map_fst plan,
    List.countP_map]
  congr 1

/-- If exactly one of the first `N` positions fails, `N - 1` succeed. -/
theorem countP_of_one_failure (N : Nat) (f : Nat → Bool)
    (h : (List.range N).countP (fun i => !f i) = 1) :
    (List.range N).countP f = N - 1 := by
  have hlen := List.length_eq_countP_add_countP f (List.range N)
  have hconv : (List.range N).countP (fun a => decide ¬(f a = true)) =
      (List.range N).countP (fun i => !f i) := by
    congr 1
    funext a
    cases f a <;> rfl
  rw [List.length_range, hconv, h] at hlen
  omega

/-! ## Workflow Engine claim theorems -/

/-- C2, counterexample: a start transition whose question generation
fails still writes an intermediate state (phase `clarification`, request
updated) to storage before reverting, so not every persisted state equals
the pre-transition (last good phase) state, which for a fresh provider is
the all-empty `idle` state. -/
theorem C2_counterexample_intermediate_write :
    ¬ ∀ s ∈ (PlannerProvider.generatePlan (newPlannerProvider none)
        (some "Add Auth0 login") []).savedLog,
      s = initialWorkflowState := by decide

/-- C2, amended: both transitions persist an intermediate in-progress
state before invoking the generation step; on a failed generation the
*final* persisted state is back in the last good phase — for submit it is
exactly the pre-transition state, while for start the phase reverts to
`idle` but the new trimmed request and cleared question/answer lists
remain. -/
theorem C2_failed_generation_persistence (e e' : Engine) (req : String)
    (h1 : e.workflowState.phase = Phase.idle) (h2 : req ≠ "")
    (h3 : e'.workflowState.phase = Phase.clarification)
    (h4 : e'.workflowState.clarificationAnswers.length =
      e'.workflowState.clarificationQuestions.length) :
    ((PlannerProvider.generatePlan e (some req) []).savedLog =
        e.savedLog ++ [startMidState e.workflowState req,
          { startMidState e.workflowState req with phase := Phase.idle }] ∧
      (PlannerProvider.generatePlan e (some req) []).workflowState =
        { startMidState e.workflowState req with phase := Phase.idle }) ∧
    ((submitClarification e' []).savedLog =
        e'.savedLog ++ [{ e'.workflowState with phase := Phase.planning },
          e'.workflowState] ∧
      (submitClarification e' []).workflowState = e'.workflowState ∧
      (submitClarification e' []).storage = some e'.workflowState) := by
  constructor
  · have hph : ¬(e.workflowState.phase ≠ Phase.idle) := by simp [h1]
    unfold PlannerProvider.generatePlan
    rw [if_neg hph]
    dsimp only
    rw [if_neg h2]
    simp [saveWorkflowState, startMidState]
  · obtain ⟨⟨ph, ur, qs, ans, pl⟩, st, lg, ac, anc, ap, lr⟩ := e'
    simp only at h3 h4
    subst h3
    unfold submitClarification
    simp [h4, saveWorkflowState]

/-- C2, witness: with one answered question, a failed submit leaves the
provider's state exactly as it was. -/
theorem C2_failed_generation_persistence_witness :
    (submitClarification sampleClarFullEngine []).workflowState =
      sampleClarFullEngine.workflowState :=
  ((C2_failed_generation_persistence sampleIdleEngine sampleClarFullEngine
      "Add Auth0 login" rfl (by decide) rfl rfl).2).2.1

/-- C3, counterexample: after a successful start from a fresh provider,
the analyzer was invoked zero times (not once) and the clarification call
received no context, refuting the claimed control flow at its own code
site. -/
theorem C3_counterexample_no_context :
    ¬ ((PlannerProvider.generatePlan (newPlannerProvider none)
          (some "Add Auth0 login") ["Should this work with your existing user database?"]).analyzerCalls = 1 ∧
       ∀ c ∈ (PlannerProvider.generatePlan (newPlannerProvider none)
          (some "Add Auth0 login") ["Should this work with your existing user database?"]).adapterCalls,
        AdapterCall.context c ≠ none) := by decide

/-- C3, amended: over any session the `PlannerProvider` never invokes the
Context Aggregator (zero invocations, not one), and every Generation
Adapter invocation it makes — the clarification call on start and the
plan call on submit — receives no codebase context at all alongside the
request and accumulated answers. -/
theorem C3_no_aggregator_no_context (storage : Option WorkflowState)
    (ops : List PlannerOp) :
    (runOps (newPlannerProvider storage) ops).analyzerCalls = 0 ∧
    ∀ c ∈ (runOps (newPlannerProvider storage) ops).adapterCalls,
      AdapterCall.context c = none := by
  obtain ⟨ha, hc⟩ := runOps_calls ops (newPlannerProvider storage)
  refine ⟨ha.trans (newPlannerProvider_analyzerCalls storage), ?_⟩
  intro c hcm
  rcases hc c hcm with h | h
  · rw [newPlannerProvider_adapterCalls] at h
    exact absurd h (List.not_mem_nil c)
  · exact h

/-- C4: executing a non-empty plan in which exactly one item fails still
attempts every item in plan order, reports `(N-1)/N` applied, and resets
the workflow state (and the persisted blob) to the `idle` defaults. -/
theorem C4_execute_one_failure (e : Engine) (applySucceeds : Nat → Bool)
    (h1 : e.workflowState.phase = Phase.ready)
    (h2 : e.workflowState.plan ≠ [])
    (h3 : (List.range e.workflowState.plan.length).countP
      (fun i => !applySucceeds i) = 1) :
    (executeToIDE e true applySucceeds).lastReport =
      some (e.workflowState.plan.length - 1, e.workflowState.plan.length) ∧
    (executeToIDE e true applySucceeds).applied =
      e.applied ++ e.workflowState.plan.enum.map (fun p => (p.2, applySucceeds p.1)) ∧
    (executeToIDE e true applySucceeds).workflowState = initialWorkflowState ∧
    (executeToIDE e true applySucceeds).storage = some initialWorkflowState := by
  have hcond : ¬(e.workflowState.phase ≠ Phase.ready ∨
      e.workflowState.plan.length = 0) := by
    intro hor
    rcases hor with hA | hB
    · exact hA h1
    · exact h2 (List.length_eq_zero.mp hB)
  unfold executeToIDE
  rw [if_neg hcond]
  rw [if_neg (by decide : ¬((!true) = true))]
  dsimp only
  refine ⟨?_, rfl, rfl, rfl⟩
  rw [execute_successCount, countP_of_one_failure _ _ h3]
  rfl

/-- C4, witness: a two-item plan with the first item failing reports 1/2
applied. -/
theorem C4_execute_one_failure_witness :
    (executeToIDE sampleReadyEngine true failFirstItem).lastReport =
      some (sampleReadyEngine.workflowState.plan.length - 1,
        sampleReadyEngine.workflowState.plan.length) :=
  (C4_execute_one_failure sampleReadyEngine failFirstItem rfl (by decide)
    (by decide)).1

/-- C8: persisting any provider's `WorkflowState` and constructing a
fresh provider that loads the persisted blob reproduces an identical
phase, request, question and answer sequences, and plan. -/
theorem C8_save_load_roundtrip (e : Engine) :
    (newPlannerProvider (saveWorkflowState e).storage).workflowState.phase =
        e.workflowState.phase ∧
    (newPlannerProvider (saveWorkflowState e).storage).workflowState.userRequest =
        e.workflowState.userRequest ∧
    (newPlannerProvider (saveWorkflowState e).storage).workflowState.clarificationQuestions =
        e.workflowState.clarificationQuestions ∧
    (newPlannerProvider (saveWorkflowState e).storage).workflowState.clarificationAnswers =
        e.workflowState.clarificationAnswers ∧
    (newPlannerProvider (saveWorkflowState e).storage).workflowState.plan =
        e.workflowState.plan :=
  ⟨rfl, rfl, rfl, rfl, rfl⟩

/-! ## Answering: helper lemmas -/

/-- Once the answer list is at least as long as the question list,
answering is the identity on the whole provider. -/
theorem answerNextQuestion_noRoom (e : Engine) (i : Option String)
    (h : e.workflowState.clarificationQuestions.length ≤
      e.workflowState.clarificationAnswers.length) :
    answerNextQuestion e i = e := by
  unfold answerNextQuestion
  by_cases hp : e.workflowState.phase ≠ Phase.clarification
  · rw [if_pos hp]
  · rw [if_neg hp, if_pos h]

/-- A dismissed input box leaves the provider untouched. -/
theorem answerNextQuestion_none (e : Engine) :
    answerNextQuestion e none = e := by
  unfold answerNextQuestion
  by_cases hp : e.workflowState.phase ≠ Phase.clarification
  · rw [if_pos hp]
  · rw [if_neg hp]
    by_cases hq : e.workflowState.clarificationQuestions.length ≤
        e.workflowState.clarificationAnswers.length
    · rw [if_pos hq]
    · rw [if_neg hq]

/-- An empty answer leaves the provider untouched. -/
theorem answerNextQuestion_emptyInput (e : Engine) :
    answerNextQuestion e (some "") = e := by
  unfold answerNextQuestion
  by_cases hp : e.workflowState.phase ≠ Phase.clarification
  · rw [if_pos hp]
  · rw [if_neg hp]
    by_cases hq : e.workflowState.clarificationQuestions.length ≤
        e.workflowState.clarificationAnswers.length
    · rw [if_pos hq]
    · rw [if_neg hq]
      dsimp only
      rw [if_pos rfl]

/-- With room left and a non-empty answer, answering appends the trimmed
answer and persists. -/
theorem answerNextQuestion_push (e : Engine) (a : String)
    (h1 : e.workflowState.phase = Phase.clarification)
    (h2 : e.workflowState.clarificationAnswers.length <
      e.workflowState.clarificationQuestions.length)
    (h3 : a ≠ "") :
    answerNextQuestion e (some a) =
      saveWorkflowState
        { e with workflowState :=
          { e.workflowState with
            clarificationAnswers :=
              e.workflowState.clarificationAnswers ++ [jsTrim a] } } := by
  unfold answerNextQuestion
  rw [if_neg (by simp [h1]), if_neg (by omega)]
  dsimp only
  rw [if_neg h3]

/-- A dismissed box contributes no accepted answer. -/
theorem acceptedAnswers_cons_none (rest : List (Option String)) :
    acceptedAnswers (none :: rest) = acceptedAnswers rest := by
  simp [acceptedAnswers]

/-- An empty answer contributes no accepted answer. -/
theorem acceptedAnswers_cons_empty (rest : List (Option String)) :
    acceptedAnswers (some "" :: rest) = acceptedAnswers rest := by
  simp [acceptedAnswers]

/-- A non-empty answer contributes its trimmed form, in order. -/
theorem acceptedAnswers_cons_some (a : String) (rest : List (Option String))
    (h : a ≠ "") :
    acceptedAnswers (some a :: rest) = jsTrim a :: acceptedAnswers rest := by
  simp [acceptedAnswers, h]

/-- With the questions fully answered, any sequence of further answering
invocations is the identity on the whole provider. -/
theorem runAnswers_noRoom (inputs : List (Option String)) (e : Engine)
    (h : e.workflowState.clarificationQuestions.length ≤
      e.workflowState.clarificationAnswers.length) :
    runAnswers e inputs = e := by
  induction inputs generalizing e with
  | nil => rfl
  | cons i rest ih =>
    have hrun : runAnswers e (i :: rest) = runAnswers (answerNextQuestion e i) rest := rfl
    rw [hrun, answerNextQuestion_noRoom e i h]
    exact ih e h

/-- Over any sequence of input-box results, the questions are unchanged
and exactly the first accepted answers that fit are appended, in call
order and trimmed. -/
theorem runAnswers_characterization (inputs : List (Option String)) (e : Engine)
    (h1 : e.workflowState.phase = Phase.clarification)
    (h2 : e.workflowState.clarificationAnswers.length ≤
      e.workflowState.clarificationQuestions.length) :
    (runAnswers e inputs).workflowState.clarificationQuestions =
      e.workflowState.clarificationQuestions ∧
    (runAnswers e inputs).workflowState.clarificationAnswers =
      e.workflowState.clarificationAnswers ++
        (acceptedAnswers inputs).take
          (e.workflowState.clarificationQuestions.length -
            e.workflowState.clarificationAnswers.length) := by
  induction inputs generalizing e with
  | nil =>
    simp [runAnswers, acceptedAnswers]
  | cons i rest ih =>
    have hrun : runAnswers e (i :: rest) = runAnswers (answerNextQuestion e i) rest := rfl
    cases i with
    | none =>
      rw [hrun, answerNextQuestion_none, acceptedAnswers_cons_none]
      exact ih e h1 h2
    | some a =>
      by_cases ha : a = ""
      · subst ha
        rw [hrun, answerNextQuestion_emptyInput, acceptedAnswers_cons_empty]
        exact ih e h1 h2
      · rw [hrun, acceptedAnswers_cons_some a rest ha]
        by_cases hroom : e.workflowState.clarificationAnswers.length <
            e.workflowState.clarificationQuestions.length
        · rw [answerNextQuestion_push e a h1 hroom ha]
          have h1' : (saveWorkflowState
              { e with workflowState :=
                { e.workflowState with
                  clarificationAnswers :=
                    e.workflowState.clarificationAnswers ++ [jsTrim a] } }).workflowState.phase =
              Phase.clarification := h1
          have h2' : (saveWorkflowState
              { e with workflowState :=
                { e.workflowState with
                  clarificationAnswers :=
                    e.workflowState.clarificationAnswers ++ [jsTrim a] } }).workflowState.clarificationAnswers.length ≤
              (saveWorkflowState
              { e with workflowState :=
                { e.workflowState with
                  clarificationAnswers :=
                    e.workflowState.clarificationAnswers ++ [jsTrim a] } }).workflowState.clarificationQuestions.length := by
            simp only [saveWorkflowState, List.length_append, List.length_singleton]
            omega
          obtain ⟨hq, hans⟩ := ih _ h1' h2'
          refine ⟨hq, ?_⟩
          rw [hans]
          show (e.workflowState.clarificationAnswers ++ [jsTrim a]) ++
              (acceptedAnswers rest).take
                (e.workflowState.clarificationQuestions.length -
                  (e.workflowState.clarificationAnswers ++ [jsTrim a]).length) =
            e.workflowState.clarificationAnswers ++
              (jsTrim a :: acceptedAnswers rest).take
                (e.workflowState.clarificationQuestions.length -
                  e.workflowState.clarificationAnswers.length)
          rw [List.length_append, List.length_singleton]
          have hsub : e.workflowState.clarificationQuestions.length -
              e.workflowState.clarificationAnswers.length =
              (e.workflowState.clarificationQuestions.length -
                (e.workflowState.clarificationAnswers.length + 1)) + 1 := by
            omega
          rw [hsub, List.take_succ_cons]
          simp
        · have hfull : e.workflowState.clarificationQuestions.length ≤
              e.workflowState.clarificationAnswers.length := by omega
          rw [answerNextQuestion_noRoom e (some a) hfull, runAnswers_noRoom rest e hfull]
          have h0 : e.workflowState.clarificationQuestions.length -
              e.workflowState.clarificationAnswers.length = 0 := by omega
          rw [h0]
          simp

/-- C7: over any invocation sequence, answers are appended in call order
(trimmed accepted inputs only, up to the number of open questions), the
answer count never exceeds the question count, and once every question is
answered any further invocation sequence is a no-op that changes no
state. -/
theorem C7_answer_sequence (e : Engine) (inputs : List (Option String))
    (h1 : e.workflowState.phase = Phase.clarification)
    (h2 : e.workflowState.clarificationAnswers.length ≤
      e.workflowState.clarificationQuestions.length) :
    (runAnswers e inputs).workflowState.clarificationAnswers =
      e.workflowState.clarificationAnswers ++
        (acceptedAnswers inputs).take
          (e.workflowState.clarificationQuestions.length -
            e.workflowState.clarificationAnswers.length) ∧
    (runAnswers e inputs).workflowState.clarificationAnswers.length ≤
      (runAnswers e inputs).workflowState.clarificationQuestions.length ∧
    (e.workflowState.clarificationAnswers.length =
        e.workflowState.clarificationQuestions.length →
      runAnswers e inputs = e) := by
  obtain ⟨hq, hans⟩ := runAnswers_characterization inputs e h1 h2
  refine ⟨hans, ?_, ?_⟩
  · rw [hq, hans, List.length_append, List.length_take]
    have hmin := Nat.min_le_left
      (e.workflowState.clarificationQuestions.length -
        e.workflowState.clarificationAnswers.length)
      (acceptedAnswers inputs).length
    omega
  · intro hfull
    exact runAnswers_noRoom inputs e (le_of_eq hfull.symm)

/-- C7, witness: from a two-question state with no answers, the sample
input sequence appends exactly its accepted answers in order. -/
theorem C7_answer_sequence_witness :
    (runAnswers sampleClarPendingEngine sampleAnswerInputs).workflowState.clarificationAnswers =
      sampleClarPendingEngine.workflowState.clarificationAnswers ++
        (acceptedAnswers sampleAnswerInputs).take
          (sampleClarPendingEngine.workflowState.clarificationQuestions.length -
            sampleClarPendingEngine.workflowState.clarificationAnswers.length) :=
  (C7_answer_sequence sampleClarPendingEngine sampleAnswerInputs rfl (by decide)).1

/-! ## Context Aggregator: helper lemmas -/

/-- Once the cap is reached, the accumulating loop adds nothing more. -/
theorem addPatternFiles_stop (files : List FileInfo) (rest : List CodebaseAnalyzer.FileCand)
    (h : CodebaseAnalyzer.maxTotalFiles ≤ files.length) :
    CodebaseAnalyzer.addPatternFiles files rest = files := by
  cases rest with
  | nil => rfl
  | cons f r =>
    unfold CodebaseAnalyzer.addPatternFiles
    rw [if_pos h]

/-- Every file the inner loop accumulates is either already present or a
readable, size-admissible candidate stored whole. -/
theorem mem_addPatternFiles (l : List CodebaseAnalyzer.FileCand) (files : List FileInfo)
    (f : FileInfo) (hf : f ∈ CodebaseAnalyzer.addPatternFiles files l) :
    f ∈ files ∨ ∃ c ∈ l, c.readable = true ∧ c.size ≤ CodebaseAnalyzer.maxFileSize ∧
      f = CodebaseAnalyzer.toFileInfo c := by
  induction l generalizing files with
  | nil => exact Or.inl hf
  | cons c rest ih =>
    unfold CodebaseAnalyzer.addPatternFiles at hf
    by_cases hcap : CodebaseAnalyzer.maxTotalFiles ≤ files.length
    · rw [if_pos hcap] at hf
      exact Or.inl hf
    · rw [if_neg hcap] at hf
      by_cases hread : (!c.readable) = true
      · rw [if_pos hread] at hf
        rcases ih files hf with h | ⟨c', hc', hh⟩
        · exact Or.inl h
        · exact Or.inr ⟨c', List.mem_cons_of_mem _ hc', hh⟩
      · rw [if_neg hread] at hf
        by_cases hsize : CodebaseAnalyzer.maxFileSize < c.size
        · rw [if_pos hsize] at hf
          rcases ih files hf with h | ⟨c', hc', hh⟩
          · exact Or.inl h
          · exact Or.inr ⟨c', List.mem_cons_of_mem _ hc', hh⟩
        · rw [if_neg hsize] at hf
          rcases ih _ hf with h | ⟨c', hc', hh⟩
          · rcases List.mem_append.mp h with h' | h'
            · exact Or.inl h'
            · simp only [List.mem_singleton] at h'
              refine Or.inr ⟨c, List.mem_cons_self c rest, ?_, ?_, h'⟩
              · simpa using hread
              · omega
          · exact Or.inr ⟨c', List.mem_cons_of_mem _ hc', hh⟩

/-- Every file the whole pattern fold accumulates is either initial or a
readable, size-admissible candidate of one pattern, stored whole. -/
theorem mem_foldl_addPatternFiles (found : List (List CodebaseAnalyzer.FileCand))
    (acc : List FileInfo) (f : FileInfo)
    (hf : f ∈ found.foldl CodebaseAnalyzer.addPatternFiles acc) :
    f ∈ acc ∨ ∃ l ∈ found, ∃ c ∈ l, c.readable = true ∧
      c.size ≤ CodebaseAnalyzer.maxFileSize ∧ f = CodebaseAnalyzer.toFileInfo c := by
  induction found generalizing acc with
  | nil => exact Or.inl hf
  | cons l rest ih =>
    rcases ih (CodebaseAnalyzer.addPatternFiles acc l) hf with h | ⟨l', hl', hrest⟩
    · rcases mem_addPatternFiles l acc f h with h' | ⟨c, hc, hh⟩
      · exact Or.inl h'
      · exact Or.inr ⟨l, List.mem_cons_self l rest, c, hc, hh⟩
    · exact Or.inr ⟨l', List.mem_cons_of_mem _ hl', hrest⟩

/-- C9: the analyzer's key-file list never exceeds 20 entries, every
stored file's size is at most 50000 bytes and its content is a candidate's
content stored whole (oversized or unreadable candidates are skipped
entirely, never truncated), and the accumulation stops as soon as the
global cap is reached. -/
theorem C9_key_file_caps (foundFiles : List (List CodebaseAnalyzer.FileCand)) :
    (CodebaseAnalyzer.findKeyFiles foundFiles).length ≤ CodebaseAnalyzer.maxTotalFiles ∧
    (∀ f ∈ CodebaseAnalyzer.findKeyFiles foundFiles,
      f.size ≤ CodebaseAnalyzer.maxFileSize) ∧
    (∀ f ∈ CodebaseAnalyzer.findKeyFiles foundFiles, ∃ l ∈ foundFiles, ∃ c ∈ l,
      c.readable = true ∧ c.size ≤ CodebaseAnalyzer.maxFileSize ∧
      f = CodebaseAnalyzer.toFileInfo c) ∧
    (∀ files rest, CodebaseAnalyzer.maxTotalFiles ≤ files.length →
      CodebaseAnalyzer.addPatternFiles files rest = files) := by
  have hmem : ∀ f ∈ CodebaseAnalyzer.findKeyFiles foundFiles, ∃ l ∈ foundFiles, ∃ c ∈ l,
      c.readable = true ∧ c.size ≤ CodebaseAnalyzer.maxFileSize ∧
      f = CodebaseAnalyzer.toFileInfo c := by
    intro f hf
    have hf' := List.mem_of_mem_take hf
    rcases mem_foldl_addPatternFiles foundFiles [] f hf' with h | h
    · exact absurd h (List.not_mem_nil f)
    · exact h
  refine ⟨List.length_take_le _ _, ?_, hmem, addPatternFiles_stop⟩
  intro f hf
  rcases hmem f hf with ⟨l, _, c, _, _, hsize, heq⟩
  rw [heq]
  exact hsize

end Traycer
